import Mathlib

/-
Verification of the Formation provider/service registry
(src/src/services/Formation/Formation.js).

The provider holds four pieces of process-wide mutable state: a component
name prefix (source var `prefix`, modelled as `prefixStr` since `prefix` is a
Lean keyword), a global error-display flag value (`showErrorsOnStr`), an id
counter (`counter`, initialised to -1), and an append-only list of registered
component/directive names (`registeredComponents`).  We embed the state as a
Lean structure and each provider/service function as an explicit
state-passing function.  The host framework's compiler
(`$compileProvider.component` / `$compileProvider.directive`) is opaque to
the registry; we model it as a `Host` record of success predicates plus logs
of the forwarded calls, and a host "throw" as the boolean result `false`
with the registry state at the point of the throw returned unchanged past
that point (JavaScript executes the statements of `$registerComponent`
sequentially, so a throw in the host call skips the subsequent push).

JS values passed to the setters can be of any type; we embed the JS value
universe needed by the claims as `JSVal` (strings, integer numbers,
booleans, null, undefined, opaque function tokens, and objects as ordered
association lists, matching JS insertion-order key enumeration).
-/

set_option autoImplicit false

namespace Formation

/-- A JavaScript value, as far as the registry's claims need: strings,
(integer) numbers, booleans, `null`, `undefined`, opaque function tokens and
plain objects as insertion-ordered association lists. -/
inductive JSVal : Type where
  | str : String → JSVal
  | num : Int → JSVal
  | bool : Bool → JSVal
  | null : JSVal
  | undef : JSVal
  | fn : Nat → JSVal
  | obj : List (String × JSVal) → JSVal

/-- Modelled from the spec: the JS `String()` coercion used by `setPrefix`
("coerces input to a string").  Standard JS stringification on the modelled
value universe; opaque function tokens stringify to a nominal placeholder
(no claim depends on that case). -/
def jsToString : JSVal → String
  | JSVal.str s => s
  | JSVal.num n => toString n
  | JSVal.bool b => if b then "true" else "false"
  | JSVal.null => "null"
  | JSVal.undef => "undefined"
  | JSVal.fn _ => "function"
  | JSVal.obj _ => "[object Object]"

/-- Modelled from the spec: `capitalize` lives in src/etc/utils, which is not
under src/.  Spec: "Capitalization rule: first character uppercased,
remainder unchanged (ASCII simple case)." -/
def capitalize (s : String) : String :=
  match s.data with
  | [] => s
  | c :: cs => String.mk (Char.toUpper c :: cs)

/-- Modelled from the spec: `lowercase` lives in src/etc/utils, which is not
under src/.  Spec: `registerComponent` "lowercases `name`"; we lowercase the
whole string, character by character. -/
def lowercase (s : String) : String :=
  String.mk (s.data.map Char.toLower)

/-- Modelled from the spec: `DEFAULT_PREFIX` lives in src/etc/constants,
which is not under src/.  The doc comment of `setPrefix` in Formation.js
says "If not configured, built-in components will use the prefix `fm`." -/
def DEFAULT_PREFIX : String := "fm"

/-- Modelled from the spec: `FORM_COMPONENT_NAME` lives in src/etc/constants,
which is not under src/; the Formation.js doc comments render the form
component as the `fm` element. -/
def FORM_COMPONENT_NAME : String := "fm"

/-- Modelled from the spec: `COMPONENT_CONFIGURATION` is a key exported by
src/components/FormationControl, which is not under src/.  The claims only
need it to be a fixed key distinct from `$ngDisabled`; the concrete spelling
is nominal. -/
def COMPONENT_CONFIGURATION : String := "$configuration"

/-- Modelled from the spec: `FORM_CONTROLLER` is a key exported by
src/components/FormationControl, which is not under src/.  The claims only
need it to be a fixed key; the concrete spelling is nominal. -/
def FORM_CONTROLLER : String := "$fmController"

/-- The provider's private mutable state (Formation.js lines 40-71), plus
logs of the calls forwarded to the opaque host compiler. -/
structure RegistryState : Type where
  prefixStr : String
  showErrorsOnStr : JSVal
  counter : Int
  registeredComponents : List String
  hostComponents : List (String × JSVal)
  hostDirectives : List (String × JSVal)

/-- The state at provider creation: `prefix = ''`, `showErrorsOnStr`
undefined, `counter = -1`, no registrations. -/
def initState : RegistryState :=
  { prefixStr := ""
    showErrorsOnStr := JSVal.undef
    counter := -1
    registeredComponents := []
    hostComponents := []
    hostDirectives := [] }

/-- The opaque host compiler (`$compileProvider`): for each forwarded name,
whether the host call returns normally (`true`) or throws (`false`). -/
structure Host : Type where
  componentOk : String → Bool
  directiveOk : String → Bool

/-- A host compiler that accepts every registration. -/
def okHost : Host :=
  { componentOk := fun _ => true, directiveOk := fun _ => true }

/-- A host compiler that rejects every registration (e.g. name collision). -/
def failHost : Host :=
  { componentOk := fun _ => false, directiveOk := fun _ => false }

/-- `this.$getRegisteredComponents = () => R.clone(registeredComponents)`
(lines 86-88); `R.clone` on a list of strings is an element-wise copy. -/
def cloneList (l : List String) : List String :=
  l.map (fun x => x)

def getRegisteredComponents (s : RegistryState) : List String :=
  cloneList s.registeredComponents

/-- `this.setPrefix = newPrefix => { prefix = String(newPrefix); }`
(lines 113-115). -/
def setPrefix (s : RegistryState) (newPrefix : JSVal) : RegistryState :=
  { s with prefixStr := jsToString newPrefix }

/-- `this.showErrorsOn = flags => { showErrorsOnStr = flags; }`
(lines 136-138): stores the argument verbatim, no coercion. -/
def showErrorsOn (s : RegistryState) (flags : JSVal) : RegistryState :=
  { s with showErrorsOnStr := flags }

/-- `function $getNextId () { return ++counter; }` (lines 166-168):
pre-increment, so the state is updated and the updated value returned. -/
def getNextId (s : RegistryState) : RegistryState × Int :=
  ({ s with counter := s.counter + 1 }, s.counter + 1)

/-- `function $getShowErrorsOnStr () { return showErrorsOnStr; }`
(lines 181-183). -/
def getShowErrorsOnStr (s : RegistryState) : JSVal :=
  s.showErrorsOnStr

/-- `function $getPrefixedName (name)` (lines 201-203): the template literal
interpolates `prefix || DEFAULT_PREFIX` (a string is falsy exactly when
empty) and `capitalize(name)`. -/
def getPrefixedName (s : RegistryState) (name : String) : String :=
  (if s.prefixStr = "" then DEFAULT_PREFIX else s.prefixStr) ++ capitalize name

/-- `function $registerComponent (name, definition)` (lines 223-226): first
`$compileProvider.component(lowercase(name), definition)`, then
`registeredComponents.push(name)`.  If the host call throws the push is not
executed; the boolean result records whether the host call returned
normally. -/
def registerComponent (host : Host) (s : RegistryState) (name : String)
    (definition : JSVal) : RegistryState × Bool :=
  if host.componentOk (lowercase name) then
    ({ s with
        hostComponents := s.hostComponents ++ [(lowercase name, definition)]
        registeredComponents := s.registeredComponents ++ [name] }, true)
  else
    (s, false)

/-- `function $registerDirective (name, directiveFn)` (lines 248-251): first
`$compileProvider.directive(lowercase(name), directiveFn)`, then
`registeredComponents.push(name)`. -/
def registerDirective (host : Host) (s : RegistryState) (name : String)
    (directiveFn : JSVal) : RegistryState × Bool :=
  if host.directiveOk (lowercase name) then
    ({ s with
        hostDirectives := s.hostDirectives ++ [(lowercase name, directiveFn)]
        registeredComponents := s.registeredComponents ++ [name] }, true)
  else
    (s, false)

/-- First-match association-list lookup, as JS property access over our
insertion-ordered object representation. -/
def lookupJS : List (String × JSVal) → String → Option JSVal
  | [], _ => none
  | (k, v) :: rest, key => if k = key then some v else lookupJS rest key

mutual

/-- Modelled from the spec: `mergeDeep` lives in src/etc/utils, which is not
under src/.  Spec: a deep merge that adds the base keys alongside the
caller's keys, "recursively merging overlapping nested objects/maps"; the
spec leaves precedence on primitive conflicts open (Design Notes), and we
model the usual right-biased deep merge (the later argument wins when the
two sides are not both objects). -/
def mergeDeep : JSVal → JSVal → JSVal
  | JSVal.obj a, JSVal.obj b =>
      JSVal.obj (mergeEntries a b ++ b.filter (fun kv => (lookupJS a kv.1).isNone))
  | _, b => b

/-- The entries of the left object, with values deep-merged against the
right object's entry of the same key when one exists. -/
def mergeEntries : List (String × JSVal) → List (String × JSVal) → List (String × JSVal)
  | [], _ => []
  | (k, v) :: rest, b =>
      (match lookupJS b k with
       | some w => (k, mergeDeep v w)
       | none => (k, v)) :: mergeEntries rest b

end

/-- The base component definition object literal passed to `mergeDeep` by
`registerControl` (lines 290-298). -/
def controlBaseEntries : List (String × JSVal) :=
  [("bindings", JSVal.obj
      [(COMPONENT_CONFIGURATION, JSVal.str "<config"),
       ("$ngDisabled", JSVal.str "<ngDisabled")]),
   ("require", JSVal.obj
      [(FORM_CONTROLLER, JSVal.str ("^^" ++ FORM_COMPONENT_NAME))])]

def controlBase : JSVal :=
  JSVal.obj controlBaseEntries

/-- `function registerControl (name, definition)` (lines 289-299):
`$registerComponent(name, mergeDeep(base, definition))`. -/
def registerControl (host : Host) (s : RegistryState) (name : String)
    (definition : JSVal) : RegistryState × Bool :=
  registerComponent host s name (mergeDeep controlBase definition)

-- ----- Operation traces ------------------------------------------------------

/-- One call to the registry's public surface, for stating properties over
arbitrary interleavings of operations. -/
inductive Op : Type where
  | setPrefix (v : JSVal)
  | showErrorsOn (v : JSVal)
  | getNextId
  | getShowErrorsOnStr
  | getPrefixedName (name : String)
  | getRegisteredComponents
  | registerComponent (name : String) (definition : JSVal)
  | registerDirective (name : String) (directiveFn : JSVal)
  | registerControl (name : String) (definition : JSVal)

/-- The registry state after one operation (reads leave the state alone;
a registration whose host call throws leaves it alone too, since the push
follows the host call). -/
def applyOp (host : Host) (s : RegistryState) : Op → RegistryState
  | Op.setPrefix v => setPrefix s v
  | Op.showErrorsOn v => showErrorsOn s v
  | Op.getNextId => (getNextId s).1
  | Op.getShowErrorsOnStr => s
  | Op.getPrefixedName _ => s
  | Op.getRegisteredComponents => s
  | Op.registerComponent name d => (registerComponent host s name d).1
  | Op.registerDirective name f => (registerDirective host s name f).1
  | Op.registerControl name d => (registerControl host s name d).1

/-- The registry state after a sequence of operations. -/
def runState (host : Host) (s : RegistryState) (ops : List Op) : RegistryState :=
  ops.foldl (applyOp host) s

/-- The ids a single operation returns to its caller: `getNextId` returns
one id, every other operation returns none. -/
def idsOut (s : RegistryState) : Op → List Int
  | Op.getNextId => [(getNextId s).2]
  | _ => []

/-- The ids returned to callers over a sequence of operations, in call
order. -/
def runIds (host : Host) (s : RegistryState) : List Op → List Int
  | [] => []
  | op :: rest => idsOut s op ++ runIds host (applyOp host s op) rest

/-- How many `getNextId` calls a sequence of operations contains. -/
def countNextId : List Op → Nat
  | [] => 0
  | Op.getNextId :: rest => countNextId rest + 1
  | _ :: rest => countNextId rest

/-- The argument of the last `showErrorsOn` call in a sequence of
operations, if any. -/
def lastShowErrorsOn : List Op → Option JSVal
  | [] => none
  | op :: rest =>
      match lastShowErrorsOn rest with
      | some v => some v
      | none =>
          match op with
          | Op.showErrorsOn v => some v
          | _ => none

-- ----- Heap model for the defensive copy -------------------------------------

/-- A heap of JS arrays of strings, for the aliasing-sensitive part of the
`$getRegisteredComponents` contract: the registry's backing array lives at
address `regAddr`; `R.clone` allocates a fresh array. -/
structure ArrayHeap : Type where
  cells : List (List String)

/-- The array stored at an address. -/
def ArrayHeap.readAddr (h : ArrayHeap) (a : Nat) : List String :=
  h.cells.getD a []

/-- A caller mutating the array at an address in place. -/
def ArrayHeap.writeAddr (h : ArrayHeap) (a : Nat) (l : List String) : ArrayHeap :=
  ⟨h.cells.set a l⟩

/-- The address of the registry's own `registeredComponents` array. -/
def regAddr : Nat := 0

/-- `$getRegisteredComponents` in the heap model: `R.clone` allocates a
fresh cell holding a copy of the registry's array and returns its address
to the caller. -/
def getRegisteredComponentsRef (h : ArrayHeap) : ArrayHeap × Nat :=
  (⟨h.cells ++ [cloneList (h.readAddr regAddr)]⟩, h.cells.length)

-- ----- Helper lemmas ---------------------------------------------------------

@[simp] lemma cloneList_eq (l : List String) : cloneList l = l := by
  simp [cloneList]

@[simp] lemma lookupJS_cons (kv : String × JSVal) (rest : List (String × JSVal))
    (key : String) :
    lookupJS (kv :: rest) key = if kv.1 = key then some kv.2 else lookupJS rest key :=
  rfl

lemma lookupJS_append_some {a b : List (String × JSVal)} {k : String} {v : JSVal}
    (h : lookupJS a k = some v) : lookupJS (a ++ b) k = some v := by
  induction a with
  | nil => simp [lookupJS] at h
  | cons hd rest ih =>
      rw [lookupJS_cons] at h
      rw [List.cons_append, lookupJS_cons]
      by_cases hc : hd.1 = k
      · rw [if_pos hc] at h ⊢; exact h
      · rw [if_neg hc] at h ⊢; exact ih h

lemma lookupJS_append_none {a b : List (String × JSVal)} {k : String}
    (h : lookupJS a k = none) : lookupJS (a ++ b) k = lookupJS b k := by
  induction a with
  | nil => simp
  | cons hd rest ih =>
      rw [lookupJS_cons] at h
      rw [List.cons_append, lookupJS_cons]
      by_cases hc : hd.1 = k
      · rw [if_pos hc] at h; cases h
      · rw [if_neg hc] at h ⊢; exact ih h

lemma lookupJS_eq_none_forall {l : List (String × JSVal)} {k : String}
    (h : lookupJS l k = none) : ∀ kv ∈ l, kv.1 ≠ k := by
  induction l with
  | nil => simp
  | cons hd rest ih =>
      rw [lookupJS_cons] at h
      split at h
      · simp at h
      · intro kv hmem
        rcases List.mem_cons.mp hmem with hkv | hkv
        · subst hkv; assumption
        · exact ih h kv hkv

/-- Under the claims' no-conflict hypotheses, `mergeDeep` of the base control
definition with a caller definition is the base entries followed by the
caller's entries. -/
lemma mergeDeep_controlBase (fields : List (String × JSVal))
    (hb : lookupJS fields "bindings" = none)
    (hr : lookupJS fields "require" = none) :
    mergeDeep controlBase (JSVal.obj fields) = JSVal.obj (controlBaseEntries ++ fields) := by
  have hfilter : fields.filter (fun kv => (lookupJS controlBaseEntries kv.1).isNone) = fields := by
    apply List.filter_eq_self.mpr
    intro kv hmem
    have h1 : kv.1 ≠ "bindings" := lookupJS_eq_none_forall hb kv hmem
    have h2 : kv.1 ≠ "require" := lookupJS_eq_none_forall hr kv hmem
    have hnone : lookupJS controlBaseEntries kv.1 = none := by
      simp only [controlBaseEntries, lookupJS_cons]
      rw [if_neg (Ne.symm h1), if_neg (Ne.symm h2)]
      rfl
    simp [hnone]
  have hentries : mergeEntries controlBaseEntries fields = controlBaseEntries := by
    simp only [controlBaseEntries, mergeEntries, hb, hr]
  show JSVal.obj (mergeEntries controlBaseEntries fields ++
      fields.filter (fun kv => (lookupJS controlBaseEntries kv.1).isNone)) = _
  rw [hentries, hfilter]

lemma registerComponent_counter (host : Host) (s : RegistryState) (name : String)
    (d : JSVal) : (registerComponent host s name d).1.counter = s.counter := by
  unfold registerComponent
  split <;> rfl

lemma registerDirective_counter (host : Host) (s : RegistryState) (name : String)
    (f : JSVal) : (registerDirective host s name f).1.counter = s.counter := by
  unfold registerDirective
  split <;> rfl

lemma applyOp_counter (host : Host) (s : RegistryState) (op : Op)
    (h : op ≠ Op.getNextId) : (applyOp host s op).counter = s.counter := by
  cases op with
  | getNextId => exact absurd rfl h
  | registerComponent name d => exact registerComponent_counter host s name d
  | registerDirective name f => exact registerDirective_counter host s name f
  | registerControl name d => exact registerComponent_counter host s name _
  | _ => rfl

lemma registerComponent_showErrorsOnStr (host : Host) (s : RegistryState)
    (name : String) (d : JSVal) :
    (registerComponent host s name d).1.showErrorsOnStr = s.showErrorsOnStr := by
  unfold registerComponent
  split <;> rfl

lemma registerDirective_showErrorsOnStr (host : Host) (s : RegistryState)
    (name : String) (f : JSVal) :
    (registerDirective host s name f).1.showErrorsOnStr = s.showErrorsOnStr := by
  unfold registerDirective
  split <;> rfl

/-- The ids returned over any sequence of operations, starting from any
state: the pre-incremented counter issues consecutive values. -/
lemma runIds_shifted (host : Host) (ops : List Op) :
    ∀ s : RegistryState,
      runIds host s ops =
        (List.range (countNextId ops)).map (fun i : Nat => s.counter + 1 + (i : Int)) := by
  induction ops with
  | nil => intro s; rfl
  | cons op rest ih =>
      intro s
      cases op with
      | getNextId =>
          show (getNextId s).2 :: runIds host (getNextId s).1 rest = _
          rw [ih]
          rw [show countNextId (Op.getNextId :: rest) = countNextId rest + 1 from rfl,
            List.range_succ_eq_map, List.map_cons, List.map_map]
          congr 1
          · show s.counter + 1 = s.counter + 1 + ((0 : Nat) : Int)
            push_cast; ring
          · apply List.map_congr_left
            intro i _
            show (getNextId s).1.counter + 1 + (i : Int) = s.counter + 1 + ((i + 1 : Nat) : Int)
            show s.counter + 1 + 1 + (i : Int) = _
            push_cast; ring
      | setPrefix v =>
          show runIds host (setPrefix s v) rest = _
          rw [ih]; rfl
      | showErrorsOn v =>
          show runIds host (showErrorsOn s v) rest = _
          rw [ih]; rfl
      | getShowErrorsOnStr =>
          show runIds host s rest = _
          rw [ih]; rfl
      | getPrefixedName name =>
          show runIds host s rest = _
          rw [ih]; rfl
      | getRegisteredComponents =>
          show runIds host s rest = _
          rw [ih]; rfl
      | registerComponent name d =>
          show runIds host (registerComponent host s name d).1 rest = _
          rw [ih, registerComponent_counter]
          rfl
      | registerDirective name f =>
          show runIds host (registerDirective host s name f).1 rest = _
          rw [ih, registerDirective_counter]
          rfl
      | registerControl name d =>
          show runIds host (registerComponent host s name (mergeDeep controlBase d)).1 rest = _
          rw [ih, registerComponent_counter]
          rfl

/-- The globally configured error flags after any sequence of operations:
the argument of the last `showErrorsOn` call, else the starting value. -/
lemma runState_showErrorsOnStr (host : Host) (ops : List Op) :
    ∀ s : RegistryState,
      (runState host s ops).showErrorsOnStr =
        (lastShowErrorsOn ops).getD s.showErrorsOnStr := by
  induction ops with
  | nil => intro s; rfl
  | cons op rest ih =>
      intro s
      show (runState host (applyOp host s op) rest).showErrorsOnStr = _
      rw [ih]
      rcases hlast : lastShowErrorsOn rest with _ | v
      · show Option.getD none _ = Option.getD (match lastShowErrorsOn rest with
          | some v => some v
          | none => match op with | Op.showErrorsOn v => some v | _ => none) _
        rw [hlast]
        cases op with
        | showErrorsOn v => rfl
        | setPrefix v => rfl
        | getNextId => rfl
        | getShowErrorsOnStr => rfl
        | getPrefixedName name => rfl
        | getRegisteredComponents => rfl
        | registerComponent name d =>
            show (registerComponent host s name d).1.showErrorsOnStr = s.showErrorsOnStr
            exact registerComponent_showErrorsOnStr host s name d
        | registerDirective name f =>
            show (registerDirective host s name f).1.showErrorsOnStr = s.showErrorsOnStr
            exact registerDirective_showErrorsOnStr host s name f
        | registerControl name d =>
            show (registerComponent host s name _).1.showErrorsOnStr = s.showErrorsOnStr
            exact registerComponent_showErrorsOnStr host s name _
      · show Option.getD (some v) _ = Option.getD (match lastShowErrorsOn rest with
          | some v => some v
          | none => match op with | Op.showErrorsOn v => some v | _ => none) _
        rw [hlast]
        rfl

-- ----- Claims ----------------------------------------------------------------

/-- Claim C1: over any interleaving of registry operations from a fresh
provider, the ids returned by the `$getNextId` calls are exactly
`0, 1, ..., N-1` where `N` is the number of `$getNextId` calls in the
interleaving — in particular strictly increasing with no repeats — no
matter which `setPrefix`, `showErrorsOn`, read or `register*` operations
come between them. -/
theorem nextId_monotonic_unique (host : Host) (ops : List Op) :
    runIds host initState ops = (List.range (countNextId ops)).map (fun i : Nat => (i : Int))
    ∧ (runIds host initState ops).Pairwise (fun a b => a < b) := by
  have heq : runIds host initState ops =
      (List.range (countNextId ops)).map (fun i : Nat => (i : Int)) := by
    rw [runIds_shifted host ops initState]
    apply List.map_congr_left
    intro i _
    show initState.counter + 1 + (i : Int) = (i : Int)
    show (-1 : Int) + 1 + (i : Int) = (i : Int)
    ring
  refine ⟨heq, ?_⟩
  rw [heq]
  exact List.Pairwise.map _ (fun a b hab => by exact_mod_cast hab)
    (List.pairwise_lt_range _)

/-- Claim C2: with `setPrefix` never called, or called with any value whose
`String()` coercion is empty, `$getPrefixedName "input"` falls back to
`DEFAULT_PREFIX ++ "Input"`; after `setPrefix "foo"` it returns
`"fooInput"`; and `setPrefix` stores the `String()` coercion of its
argument. -/
theorem setPrefix_fallback :
    getPrefixedName initState "input" = DEFAULT_PREFIX ++ "Input"
    ∧ (∀ (s : RegistryState) (v : JSVal), jsToString v = "" →
        getPrefixedName (setPrefix s v) "input" = DEFAULT_PREFIX ++ "Input")
    ∧ (∀ s : RegistryState,
        getPrefixedName (setPrefix s (JSVal.str "foo")) "input" = "fooInput")
    ∧ (∀ (s : RegistryState) (v : JSVal), (setPrefix s v).prefixStr = jsToString v) := by
  refine ⟨rfl, ?_, fun s => rfl, fun s v => rfl⟩
  intro s v h
  show (if (setPrefix s v).prefixStr = "" then DEFAULT_PREFIX
      else (setPrefix s v).prefixStr) ++ capitalize "input" = _
  rw [show (setPrefix s v).prefixStr = jsToString v from rfl, h]
  rfl

/-- Witness for C2 at the concrete input `JSVal.str ""`, whose `String()`
coercion is the empty string. -/
theorem setPrefix_fallback_witness :
    getPrefixedName (setPrefix initState (JSVal.str "")) "input" = DEFAULT_PREFIX ++ "Input" :=
  setPrefix_fallback.2.1 initState (JSVal.str "") rfl

/-- Claim C3: for any caller definition that does not itself carry
`bindings` or `require` keys, `registerControl` registers the deep merge of
the base definition with the caller's definition: the result keeps every
caller-supplied entry, its `bindings` is exactly the two base bindings
(`COMPONENT_CONFIGURATION ↦ "<config"` and `$ngDisabled ↦ "<ngDisabled"`),
and its `require` is exactly the one base upward form-controller reference
(`FORM_CONTROLLER ↦ "^^" ++ FORM_COMPONENT_NAME`). -/
theorem registerControl_base_merge (host : Host) (s : RegistryState) (name : String)
    (fields : List (String × JSVal))
    (hok : host.componentOk (lowercase name) = true)
    (hb : lookupJS fields "bindings" = none)
    (hr : lookupJS fields "require" = none) :
    registerControl host s name (JSVal.obj fields) =
      ({ s with
          hostComponents := s.hostComponents ++
            [(lowercase name, JSVal.obj (controlBaseEntries ++ fields))]
          registeredComponents := s.registeredComponents ++ [name] }, true)
    ∧ (∀ (k : String) (v : JSVal), lookupJS fields k = some v →
        lookupJS (controlBaseEntries ++ fields) k = some v)
    ∧ lookupJS (controlBaseEntries ++ fields) "bindings" =
        some (JSVal.obj [(COMPONENT_CONFIGURATION, JSVal.str "<config"),
                         ("$ngDisabled", JSVal.str "<ngDisabled")])
    ∧ lookupJS (controlBaseEntries ++ fields) "require" =
        some (JSVal.obj [(FORM_CONTROLLER, JSVal.str ("^^" ++ FORM_COMPONENT_NAME))]) := by
  refine ⟨?_, ?_, ?_, ?_⟩
  · show registerComponent host s name (mergeDeep controlBase (JSVal.obj fields)) = _
    rw [mergeDeep_controlBase fields hb hr]
    simp [registerComponent, hok]
  · intro k v hkv
    have hkb : k ≠ "bindings" := by
      intro hk; rw [hk, hb] at hkv; cases hkv
    have hkr : k ≠ "require" := by
      intro hk; rw [hk, hr] at hkv; cases hkv
    have hnone : lookupJS controlBaseEntries k = none := by
      simp only [controlBaseEntries, lookupJS_cons]
      rw [if_neg (Ne.symm hkb), if_neg (Ne.symm hkr)]
      rfl
    rw [lookupJS_append_none hnone]
    exact hkv
  · exact lookupJS_append_some rfl
  · exact lookupJS_append_some rfl

/-- Witness for C3: registering `datePicker` with a definition carrying only
a `controller` entry. -/
theorem registerControl_base_merge_witness :
    registerControl okHost initState "datePicker" (JSVal.obj [("controller", JSVal.fn 0)]) =
      ({ initState with
          hostComponents :=
            [("datepicker", JSVal.obj (controlBaseEntries ++ [("controller", JSVal.fn 0)]))]
          registeredComponents := ["datePicker"] }, true)
    ∧ lookupJS (controlBaseEntries ++ [("controller", JSVal.fn 0)]) "controller" =
        some (JSVal.fn 0) := by
  have h := registerControl_base_merge okHost initState "datePicker"
    [("controller", JSVal.fn 0)] rfl rfl rfl
  exact ⟨by rw [h.1]; rfl, h.2.1 "controller" (JSVal.fn 0) rfl⟩

/-- Claim C4 counterexample: when the host compiler call throws (modelled by
`componentOk` returning `false`, the `false` result propagating the host's
error), the registration log afterward does NOT contain the name — the push
in the source follows the host call, so the claim that the name "appears in
`$getRegisteredComponents` even though the host registration failed" is
false at this input. -/
theorem register_failure_log_counterexample :
    (registerComponent failHost initState "fmInput" (JSVal.obj [])).2 = false
    ∧ getRegisteredComponents
        (registerComponent failHost initState "fmInput" (JSVal.obj [])).1 = []
    ∧ ¬ "fmInput" ∈ getRegisteredComponents
        (registerComponent failHost initState "fmInput" (JSVal.obj [])).1 := by
  refine ⟨rfl, rfl, ?_⟩
  intro hmem
  rw [show getRegisteredComponents
      (registerComponent failHost initState "fmInput" (JSVal.obj [])).1 = ([] : List String)
    from rfl] at hmem
  cases hmem

/-- Claim C4 amended: the registration log is appended AFTER the host
compiler call, not before; if the host call throws, the registry state —
its log included — is left exactly as it was, so the name does not appear
in `$getRegisteredComponents` after a failed registration. -/
theorem register_log_appended_after_host (host : Host) (s : RegistryState)
    (name : String) (d f : JSVal)
    (hc : host.componentOk (lowercase name) = false)
    (hd : host.directiveOk (lowercase name) = false) :
    registerComponent host s name d = (s, false)
    ∧ registerDirective host s name f = (s, false) := by
  constructor
  · simp [registerComponent, hc]
  · simp [registerDirective, hd]

/-- Witness for the amended C4 at a host that rejects every name. -/
theorem register_log_appended_after_host_witness :
    registerComponent failHost initState "fmInput" (JSVal.obj []) = (initState, false)
    ∧ registerDirective failHost initState "fmInput" (JSVal.fn 0) = (initState, false) :=
  register_log_appended_after_host failHost initState "fmInput" (JSVal.obj [])
    (JSVal.fn 0) rfl rfl

/-- Claim C5: after registering the component `fmInput` and then the
directive `fmFocus`, `$getRegisteredComponents` returns
`["fmInput", "fmFocus"]` — original names, in call order, in one shared
log; no operation ever shrinks the log; and, in the heap model, the
returned array is a fresh copy: mutating it leaves the registry's own array
(and hence later reads) unchanged, and the returned cell holds a clone of
the registry's log. -/
theorem registration_log_append_only (d f : JSVal) :
    getRegisteredComponents
        (registerDirective okHost
          (registerComponent okHost initState "fmInput" d).1 "fmFocus" f).1
      = ["fmInput", "fmFocus"]
    ∧ (∀ (host : Host) (s : RegistryState) (op : Op),
        ∃ t, (applyOp host s op).registeredComponents = s.registeredComponents ++ t)
    ∧ (∀ (h : ArrayHeap) (l : List String), 0 < h.cells.length →
        ((getRegisteredComponentsRef h).1.writeAddr
            (getRegisteredComponentsRef h).2 l).readAddr regAddr
          = h.readAddr regAddr)
    ∧ (∀ h : ArrayHeap,
        (getRegisteredComponentsRef h).1.readAddr (getRegisteredComponentsRef h).2
          = cloneList (h.readAddr regAddr)) := by
  refine ⟨rfl, ?_, ?_, ?_⟩
  · intro host s op
    cases op with
    | registerComponent name d2 =>
        show ∃ t, (registerComponent host s name d2).1.registeredComponents = _
        unfold registerComponent
        split
        · exact ⟨[name], rfl⟩
        · exact ⟨[], (List.append_nil _).symm⟩
    | registerDirective name f2 =>
        show ∃ t, (registerDirective host s name f2).1.registeredComponents = _
        unfold registerDirective
        split
        · exact ⟨[name], rfl⟩
        · exact ⟨[], (List.append_nil _).symm⟩
    | registerControl name d2 =>
        show ∃ t, (registerComponent host s name (mergeDeep controlBase d2)).1.registeredComponents = _
        unfold registerComponent
        split
        · exact ⟨[name], rfl⟩
        · exact ⟨[], (List.append_nil _).symm⟩
    | setPrefix v => exact ⟨[], (List.append_nil _).symm⟩
    | showErrorsOn v => exact ⟨[], (List.append_nil _).symm⟩
    | getNextId => exact ⟨[], (List.append_nil _).symm⟩
    | getShowErrorsOnStr => exact ⟨[], (List.append_nil _).symm⟩
    | getPrefixedName name => exact ⟨[], (List.append_nil _).symm⟩
    | getRegisteredComponents => exact ⟨[], (List.append_nil _).symm⟩
  · intro h l hlen
    show ((h.cells ++ [cloneList (h.cells.getD regAddr [])]).set h.cells.length l).getD regAddr []
      = h.cells.getD regAddr []
    rw [List.getD_eq_getElem?_getD, List.getD_eq_getElem?_getD,
      List.getElem?_set_ne (show h.cells.length ≠ regAddr from by
        show h.cells.length ≠ 0; omega),
      List.getElem?_append]
    rw [if_pos (show regAddr < h.cells.length from hlen)]
  · intro h
    show (h.cells ++ [cloneList (h.readAddr regAddr)]).getD h.cells.length []
      = cloneList (h.readAddr regAddr)
    rw [List.getD_eq_getElem?_getD, List.getElem?_concat_length]
    rfl

/-- Witness for C5 at concrete inputs, including a one-cell heap whose
registry array a caller-side mutation of the returned copy leaves
unchanged. -/
theorem registration_log_append_only_witness :
    getRegisteredComponents
        (registerDirective okHost
          (registerComponent okHost initState "fmInput" (JSVal.obj [])).1 "fmFocus" (JSVal.fn 0)).1
      = ["fmInput", "fmFocus"]
    ∧ ((getRegisteredComponentsRef ⟨[["fmInput"]]⟩).1.writeAddr
          (getRegisteredComponentsRef ⟨[["fmInput"]]⟩).2 ["mutated"]).readAddr regAddr
        = ArrayHeap.readAddr ⟨[["fmInput"]]⟩ regAddr :=
  ⟨(registration_log_append_only (JSVal.obj []) (JSVal.fn 0)).1,
   (registration_log_append_only (JSVal.obj []) (JSVal.fn 0)).2.2.1
     ⟨[["fmInput"]]⟩ ["mutated"] (by decide)⟩

/-- Claim C6: `$registerComponent` forwards the pair (whole name lowercased,
definition unchanged) to the host compiler's component registry and appends
the original, un-lowercased name to the registration log. -/
theorem registerComponent_forwards_lowercase_name (host : Host) (s : RegistryState)
    (name : String) (d : JSVal)
    (hok : host.componentOk (lowercase name) = true) :
    registerComponent host s name d =
      ({ s with
          hostComponents := s.hostComponents ++ [(lowercase name, d)]
          registeredComponents := s.registeredComponents ++ [name] }, true) := by
  simp [registerComponent, hok]

/-- Witness for C6: registering `FmInput` forwards `fminput` to the host and
logs `FmInput`. -/
theorem registerComponent_forwards_lowercase_name_witness :
    registerComponent okHost initState "FmInput" (JSVal.str "dfn") =
      ({ initState with
          hostComponents := [("fminput", JSVal.str "dfn")]
          registeredComponents := ["FmInput"] }, true) := by
  have h := registerComponent_forwards_lowercase_name okHost initState "FmInput"
    (JSVal.str "dfn") rfl
  rw [h]
  rfl

/-- Claim C7: over any operation sequence from a fresh provider,
`$getShowErrorsOnStr` returns `undefined` when no `showErrorsOn` call has
occurred, and otherwise exactly the value last passed to `showErrorsOn`,
verbatim. -/
theorem showErrorsOn_round_trip (host : Host) (ops : List Op) :
    getShowErrorsOnStr (runState host initState ops) =
      (lastShowErrorsOn ops).getD JSVal.undef :=
  runState_showErrorsOnStr host ops initState

/-- Claim C8: `$getPrefixedName` is the current prefix (or the fallback
default when the prefix is empty) concatenated with the capitalized name —
first character uppercased, remainder unchanged — a pure function of the
state's prefix and the input; a single-character name is capitalized too. -/
theorem getPrefixedName_capitalize :
    (∀ (s : RegistryState) (name : String),
        getPrefixedName s name =
          (if s.prefixStr = "" then DEFAULT_PREFIX else s.prefixStr) ++ capitalize name)
    ∧ (∀ (c : Char) (cs : List Char),
        capitalize (String.mk (c :: cs)) = String.mk (Char.toUpper c :: cs))
    ∧ capitalize "" = ""
    ∧ getPrefixedName initState "x" = DEFAULT_PREFIX ++ "X" :=
  ⟨fun _ _ => rfl, fun _ _ => rfl, rfl, rfl⟩

/-- Claim C9: the read operations `$getShowErrorsOnStr` and
`$getRegisteredComponents` are idempotent observations: repeated any number
of times with no intervening write they leave the registry state unchanged
and return the same value each time. -/
theorem reads_idempotent (host : Host) (s : RegistryState) (k : Nat) :
    runState host s (List.replicate k Op.getShowErrorsOnStr) = s
    ∧ runState host s (List.replicate k Op.getRegisteredComponents) = s
    ∧ getShowErrorsOnStr (runState host s (List.replicate k Op.getShowErrorsOnStr))
        = getShowErrorsOnStr s
    ∧ getRegisteredComponents (runState host s (List.replicate k Op.getRegisteredComponents))
        = getRegisteredComponents s := by
  have h1 : ∀ (n : Nat) (t : RegistryState),
      runState host t (List.replicate n Op.getShowErrorsOnStr) = t := by
    intro n
    induction n with
    | zero => intro t; rfl
    | succ m ih => intro t; exact ih t
  have h2 : ∀ (n : Nat) (t : RegistryState),
      runState host t (List.replicate n Op.getRegisteredComponents) = t := by
    intro n
    induction n with
    | zero => intro t; rfl
    | succ m ih => intro t; exact ih t
  exact ⟨h1 k s, h2 k s, by rw [h1 k s], by rw [h2 k s]⟩

/-- Claim C10: unlike `setPrefix` (which stores the `String()` coercion of
its argument), `showErrorsOn` performs no coercion: for a value of any
type — number, null, object, not only a string — the getter returns the
identical value. -/
theorem showErrorsOn_stores_verbatim :
    (∀ (s : RegistryState) (flags : JSVal),
        getShowErrorsOnStr (showErrorsOn s flags) = flags)
    ∧ (∀ (s : RegistryState) (v : JSVal), (setPrefix s v).prefixStr = jsToString v)
    ∧ getShowErrorsOnStr (showErrorsOn initState (JSVal.num 3)) = JSVal.num 3
    ∧ getShowErrorsOnStr (showErrorsOn initState JSVal.null) = JSVal.null
    ∧ getShowErrorsOnStr (showErrorsOn initState (JSVal.obj [("a", JSVal.num 1)]))
        = JSVal.obj [("a", JSVal.num 1)] :=
  ⟨fun _ _ => rfl, fun _ _ => rfl, rfl, rfl, rfl⟩

end Formation
